import Mathlib

/-!
Shallow embedding of the metal-toolbox/bmclib sources under verification:
the racadm driver (ChangeBiosCfg, parseJobId, parsePercentComplete) and the
iDRAC8 configuration adapter (escapeLdapString, User, Syslog, Ntp, Ldap,
LdapGroups, Network, UploadHTTPSCert).

Go strings are modelled as List Char (the parsers and escapers only use
equality, splitting, searching and slicing, all of which are parametric in
the element, and escapeLdapString ranges over runes).  Go slice panics are
modelled by an explicit outcome constructor.
-/

namespace Bmclib

/-- Outcome of a Go function that may return a value, return an error, or
panic at runtime (slice bounds out of range). -/
inductive GoRes (ε α : Type) : Type
  | ok (a : α)
  | err (e : ε)
  | panics
  deriving DecidableEq, Repr

/-- Model of Go strings.Split(message, "\n"): splits at every newline,
keeping empty segments; the result is never empty. -/
def splitLines : List Char → List (List Char)
  | [] => [[]]
  | c :: cs =>
    let r := splitLines cs
    if c = '\n' then [] :: r
    else
      match r with
      | [] => [[c]]
      | l :: ls => (c :: l) :: ls

theorem splitLines_ne_nil (cs : List Char) : splitLines cs ≠ [] := by
  induction cs with
  | nil => simp [splitLines]
  | cons c cs ih =>
    simp only [splitLines]
    split
    · simp
    · match h : splitLines cs with
      | [] => exact absurd h ih
      | l :: ls => simp

/-- Does pat occur at the head of l (pattern-match semantics of Go
strings.HasPrefix, specialised to lists)? -/
def leadsWith : List Char → List Char → Bool
  | [], _ => true
  | _ :: _, [] => false
  | p :: ps, c :: cs => p = c && leadsWith ps cs

/-- Model of Go strings.Index(l, pat): index of the first occurrence of pat
in l, or none (Go returns -1). -/
def idxOfSeq (pat : List Char) : List Char → Option Nat
  | [] => if pat.isEmpty then some 0 else none
  | c :: cs =>
    if leadsWith pat (c :: cs) then some 0
    else (idxOfSeq pat cs).map (· + 1)

/-- Model of Go strings.Contains(l, pat). -/
def containsSeq (pat l : List Char) : Bool :=
  (idxOfSeq pat l).isSome

/-- The fixed job-id marker "JID_". -/
def jidMarker : List Char := ['J', 'I', 'D', '_']

/-- Embedding of the loop body of racadm parseJobId over the split lines.
Go source: for each line, if it contains "JID_", take idx := Index(line,
"JID_") and return line[idx : idx+16]; the Go slice panics when idx+16
exceeds the line length. -/
def parseJobIdLines : List (List Char) → GoRes Unit (List Char)
  | [] => .err ()
  | line :: rest =>
    if containsSeq jidMarker line then
      match idxOfSeq jidMarker line with
      | some idx =>
        if idx + 16 ≤ line.length then .ok ((line.drop idx).take 16)
        else .panics
      | none => parseJobIdLines rest
    else parseJobIdLines rest

/-- Embedding of racadm parseJobId: split the submission output on
newlines and scan for the first line containing "JID_". -/
def parseJobId (message : List Char) : GoRes Unit (List Char) :=
  parseJobIdLines (splitLines message)

/-- The fixed progress-line marker "Percent Complete=[". -/
def pctMarker : List Char := "Percent Complete=[".toList

/-- Errors of racadm parsePercentComplete, one constructor per
fmt.Errorf site in the source. -/
inductive PctErr : Type
  | notFound
  | regexFail (line : List Char)
  | atoiFail (digits : List Char)
  deriving DecidableEq, Repr

/-- Model of Go strconv.Atoi on an all-digit, nonempty string: succeeds
with the numeric value unless it overflows a 64-bit int. -/
def atoiDigits (digits : List Char) : Except Unit Int :=
  let v : Nat := digits.foldl (fun acc c => 10 * acc + (c.toNat - '0'.toNat)) 0
  if v ≤ 2 ^ 63 - 1 then .ok (Int.ofNat v) else .error ()

/-- Try to match the regular expression Percent Complete=\[(\d+)\] at the
head of l, returning the captured digit group.  Since \d does not match a
closing bracket, the greedy \d+ is equivalent to taking the maximal digit
run and then requiring the next character to be the bracket. -/
def pctMatchHere (l : List Char) : Option (List Char) :=
  if leadsWith pctMarker l then
    let rest := l.drop pctMarker.length
    let digits := rest.takeWhile (fun c => '0' ≤ c ∧ c ≤ '9')
    if digits.isEmpty then none
    else
      match rest.drop digits.length with
      | ']' :: _ => some digits
      | _ => none
  else none

/-- Leftmost match of the percent-complete pattern in a line (Go
regexp.FindStringSubmatch semantics: scan start positions left to
right). -/
def pctFind : List Char → Option (List Char)
  | [] => none
  | l@(_ :: cs) =>
    match pctMatchHere l with
    | some d => some d
    | none => pctFind cs

/-- Embedding of racadm parsePercentComplete: find the first line with
the Percent Complete=[ marker as a head, extract the digits with a regex,
and Atoi them; any missing piece is an error. -/
def parsePercentComplete (message : List Char) : Except PctErr Int :=
  go (splitLines message)
where
  go : List (List Char) → Except PctErr Int
    | [] => .error .notFound
    | line :: rest =>
      if leadsWith pctMarker line then
        match pctFind line with
        | none => .error (.regexFail line)
        | some digits =>
          match atoiDigits digits with
          | .error _ => .error (.atoiFail digits)
          | .ok v => .ok v
      else go rest

/-! ## The ChangeBiosCfg poll loop -/

/-- Terminal / residual outcome of the ChangeBiosCfg polling loop over a
finite list of ticker firings. -/
inductive PollOut : Type
  | failedMaxErrors
  | succeeded
  | running (errorCount : Nat)
  deriving DecidableEq, Repr

/-- maxErrors constant of the racadm driver. -/
def maxErrors : Nat := 3

/-- Embedding of the ticker branch of the ChangeBiosCfg select loop: each
list element is the result of one GetJobQueue call (transport error or
raw output).  A transport error or a parsePercentComplete failure
increments the consecutive error counter and fails the operation once it
reaches maxErrors; a successful parse resets the counter and succeeds at
one hundred percent. -/
def pollJobQueue : Nat → List (Except String (List Char)) → PollOut
  | ec, [] => .running ec
  | ec, q :: qs =>
    match q with
    | .error _ =>
      if ec + 1 ≥ maxErrors then .failedMaxErrors else pollJobQueue (ec + 1) qs
    | .ok out =>
      match parsePercentComplete out with
      | .error _ =>
        if ec + 1 ≥ maxErrors then .failedMaxErrors else pollJobQueue (ec + 1) qs
      | .ok pct =>
        if pct = 100 then .succeeded else pollJobQueue 0 qs

/-- A tick on which the status query or the percent parse fails. -/
def tickFails (q : Except String (List Char)) : Bool :=
  match q with
  | .error _ => true
  | .ok out =>
    match parsePercentComplete out with
    | .error _ => true
    | .ok _ => false

/-- The timeout constant of the racadm driver, (14 min + 30 s) in
nanoseconds (the unit of Go time.Duration). -/
def timeoutNs : Int := (14 * 60 + 30) * 1000000000

/-- Environment of one ChangeBiosCfg execution: the remaining context
budget time.Until(deadline), the result of the racadm set command and the
per-tick results of the GetJobQueue calls. -/
structure CBEnv : Type where
  remaining : Int
  setOutcome : Except String (List Char)
  queue : List (Except String (List Char))

/-- Result of the embedded ChangeBiosCfg, one constructor per return
site. -/
inductive CBRes : Type
  | deadlineErr
  | setCmdErr
  | jobIdParseErr
  | panicked
  | maxConsecErr
  | success
  | stillPolling (errorCount : Nat)
  deriving DecidableEq, Repr

/-- Embedding of racadm ChangeBiosCfg.  The Bool records whether the
racadm set command was executed.  The context-cancel and hard-timeout
select branches are represented by exhausting the finite tick list. -/
def changeBiosCfg (env : CBEnv) : CBRes × Bool :=
  if env.remaining < timeoutNs then (.deadlineErr, false)
  else
    match env.setOutcome with
    | .error _ => (.setCmdErr, true)
    | .ok output =>
      match parseJobId output with
      | .panics => (.panicked, true)
      | .err _ => (.jobIdParseErr, true)
      | .ok _ =>
        match pollJobQueue 0 env.queue with
        | .failedMaxErrors => (.maxConsecErr, true)
        | .succeeded => (.success, true)
        | .running ec => (.stillPolling ec, true)

/-! ## escapeLdapString (iDRAC8) -/

/-- The replacement the Go loop body of escapeLdapString appends for one
rune. -/
def escPiece (c : Char) : List Char :=
  if c = '=' then "%5C%3D".toList
  else if c = ',' then "%5C%2C".toList
  else [c]

/-- Embedding of iDRAC8 escapeLdapString: fold over the runes of the
input, appending the escape of each to the accumulator r. -/
def escapeLdapString (s : List Char) : List Char :=
  s.foldl (fun r c => r ++ escPiece c) []

end Bmclib

deriving instance DecidableEq for Except

namespace Bmclib

/-! ## Helper lemmas about the string utilities -/

theorem leadsWith_iff_prefixRel (pat l : List Char) :
    leadsWith pat l = true ↔ pat <+: l := by
  induction pat generalizing l with
  | nil => simp [leadsWith]
  | cons p ps ih =>
    cases l with
    | nil => simp [leadsWith]
    | cons c cs =>
      simp only [leadsWith, Bool.and_eq_true, decide_eq_true_eq, ih,
        List.cons_prefix_cons]

theorem leadsWith_mono (pat xs ys : List Char) (hx : leadsWith pat xs = true)
    (hpre : xs <+: ys) : leadsWith pat ys = true := by
  rw [leadsWith_iff_prefixRel] at hx ⊢
  exact hx.trans hpre

theorem containsSeq_cons (pat : List Char) (c : Char) (cs : List Char)
    (h : containsSeq pat cs = true) : containsSeq pat (c :: cs) = true := by
  simp only [containsSeq, idxOfSeq] at h ⊢
  split
  · simp
  · simp only [Option.isSome_map']
    exact h

theorem containsSeq_nil_pat (ys : List Char) : containsSeq [] ys = true := by
  cases ys <;> simp [containsSeq, idxOfSeq, leadsWith]

theorem containsSeq_pat_of_nil (pat : List Char)
    (h : containsSeq pat [] = true) : pat = [] := by
  simp only [containsSeq, idxOfSeq] at h
  split at h
  · exact List.isEmpty_iff.mp (by assumption)
  · simp at h

theorem containsSeq_mono (pat xs ys : List Char)
    (h : containsSeq pat xs = true) (hpre : xs <+: ys) :
    containsSeq pat ys = true := by
  induction xs generalizing ys with
  | nil =>
    have hp := containsSeq_pat_of_nil pat h
    subst hp
    exact containsSeq_nil_pat ys
  | cons x xs' ih =>
    obtain ⟨t, rfl⟩ := hpre
    simp only [containsSeq, idxOfSeq] at h ⊢
    split at h
    · rename_i hl
      have : leadsWith pat (x :: (xs' ++ t)) = true :=
        leadsWith_mono pat (x :: xs') _ hl ⟨t, by simp⟩
      simp [this]
    · split
      · simp
      · simp only [Option.isSome_map'] at h ⊢
        exact ih _ h ⟨t, rfl⟩

theorem splitLines_head_prefixRel (cs l0 : List Char) (ls : List (List Char))
    (h : splitLines cs = l0 :: ls) : l0 <+: cs := by
  induction cs generalizing l0 ls with
  | nil =>
    simp only [splitLines, List.cons.injEq] at h
    simp [h.1.symm]
  | cons c cs' ih =>
    simp only [splitLines] at h
    split at h
    · cases h
      simp
    · rcases hs : splitLines cs' with _ | ⟨m, ms⟩
      · exact absurd hs (splitLines_ne_nil cs')
      · simp only [hs, List.cons.injEq] at h
        obtain ⟨h1, h2⟩ := h
        subst h1
        exact List.cons_prefix_cons.mpr ⟨rfl, ih m ms hs⟩

/-- Any occurrence of a pattern inside one of the split lines is an
occurrence inside the whole message. -/
theorem containsSeq_of_line (pat msg l : List Char)
    (hmem : l ∈ splitLines msg) (h : containsSeq pat l = true) :
    containsSeq pat msg = true := by
  induction msg generalizing l with
  | nil =>
    simp only [splitLines, List.mem_singleton] at hmem
    subst hmem
    exact h
  | cons c cs ih =>
    simp only [splitLines] at hmem
    split at hmem
    · rename_i hc
      subst hc
      rcases List.mem_cons.mp hmem with rfl | hmem'
      · have hp := containsSeq_pat_of_nil pat h
        subst hp
        exact containsSeq_nil_pat _
      · exact containsSeq_cons pat _ cs (ih l hmem' h)
    · rcases hs : splitLines cs with _ | ⟨m, ms⟩
      · exact absurd hs (splitLines_ne_nil cs)
      · simp only [hs] at hmem
        rcases List.mem_cons.mp hmem with rfl | hmem'
        · exact containsSeq_mono pat (c :: m) (c :: cs) h
            (List.cons_prefix_cons.mpr ⟨rfl, splitLines_head_prefixRel cs m ms hs⟩)
        · have : l ∈ splitLines cs := by rw [hs]; exact List.mem_cons_of_mem m hmem'
          exact containsSeq_cons pat c cs (ih l this h)

theorem parseJobIdLines_all_miss (lines : List (List Char))
    (h : ∀ l ∈ lines, containsSeq jidMarker l = false) :
    parseJobIdLines lines = .err () := by
  induction lines with
  | nil => rfl
  | cons l rest ih =>
    have hl := h l (List.mem_cons_self l rest)
    simp only [parseJobIdLines, hl]
    exact ih fun m hm => h m (List.mem_cons_of_mem l hm)

theorem parseJobIdLines_find (lines : List (List Char)) (line : List Char)
    (idx : Nat) (hfind : lines.find? (fun l => containsSeq jidMarker l) = some line)
    (hidx : idxOfSeq jidMarker line = some idx) (hok : idx + 16 ≤ line.length) :
    parseJobIdLines lines = .ok ((line.drop idx).take 16) := by
  induction lines with
  | nil => simp at hfind
  | cons l rest ih =>
    rw [List.find?_cons] at hfind
    by_cases hc : containsSeq jidMarker l = true
    · rw [hc] at hfind
      simp only [Option.some.injEq] at hfind
      subst hfind
      simp only [parseJobIdLines, hc, if_true, hidx, hok, if_pos]
    · have hc' : containsSeq jidMarker l = false := by
        simpa using hc
      rw [hc'] at hfind
      simp only [parseJobIdLines, hc', Bool.false_eq_true, if_false]
      exact ih hfind

/-! ## Helper lemmas about parsePercentComplete -/

theorem atoiDigits_nonneg (d : List Char) (v : Int)
    (h : atoiDigits d = .ok v) : 0 ≤ v := by
  simp only [atoiDigits] at h
  split at h
  · cases h
    exact Int.ofNat_nonneg _
  · cases h

theorem parsePercentComplete_go_nonneg (lines : List (List Char)) (v : Int)
    (h : parsePercentComplete.go lines = .ok v) : 0 ≤ v := by
  induction lines with
  | nil => simp [parsePercentComplete.go] at h
  | cons l rest ih =>
    by_cases hl : leadsWith pctMarker l = true
    · rcases hf : pctFind l with _ | d
      · simp [parsePercentComplete.go, hl, hf] at h
      · rcases ha : atoiDigits d with e | w
        · simp [parsePercentComplete.go, hl, hf, ha] at h
        · simp only [parsePercentComplete.go, hl, if_true, hf, ha] at h
          cases h
          exact atoiDigits_nonneg d _ ha
    · have hl' : leadsWith pctMarker l = false := by simpa using hl
      simp only [parsePercentComplete.go, hl', Bool.false_eq_true, if_false] at h
      exact ih h

theorem parsePercentComplete_nonneg (msg : List Char) (v : Int)
    (h : parsePercentComplete msg = .ok v) : 0 ≤ v :=
  parsePercentComplete_go_nonneg (splitLines msg) v h

theorem parsePercentComplete_go_all_miss (lines : List (List Char))
    (h : ∀ l ∈ lines, leadsWith pctMarker l = false) :
    parsePercentComplete.go lines = .error .notFound := by
  induction lines with
  | nil => rfl
  | cons l rest ih =>
    have hl := h l (List.mem_cons_self l rest)
    simp only [parsePercentComplete.go, hl, Bool.false_eq_true, if_false]
    exact ih fun m hm => h m (List.mem_cons_of_mem l hm)

end Bmclib

namespace Bmclib

/-! ## Poll loop step lemmas -/

theorem pollJobQueue_fail_step (ec : Nat) (q : Except String (List Char))
    (qs : List (Except String (List Char))) (hq : tickFails q = true) :
    pollJobQueue ec (q :: qs) =
      if ec + 1 ≥ maxErrors then .failedMaxErrors
      else pollJobQueue (ec + 1) qs := by
  cases q with
  | error e => rfl
  | ok out =>
    cases hp : parsePercentComplete out with
    | error e => simp [pollJobQueue, hp]
    | ok n => simp [tickFails, hp] at hq

theorem pollJobQueue_success_step (ec : Nat) (out : List Char) (n : Int)
    (qs : List (Except String (List Char)))
    (hp : parsePercentComplete out = .ok n) (hn : n ≠ 100) :
    pollJobQueue ec (.ok out :: qs) = pollJobQueue 0 qs := by
  simp [pollJobQueue, hp, hn]

theorem pollJobQueue_three_fails (q1 q2 q3 : Except String (List Char))
    (rest : List (Except String (List Char)))
    (h1 : tickFails q1 = true) (h2 : tickFails q2 = true)
    (h3 : tickFails q3 = true) :
    pollJobQueue 0 (q1 :: q2 :: q3 :: rest) = .failedMaxErrors := by
  rw [pollJobQueue_fail_step 0 q1 _ h1]
  rw [if_neg (by simp [maxErrors])]
  rw [pollJobQueue_fail_step 1 q2 _ h2]
  rw [if_neg (by simp [maxErrors])]
  rw [pollJobQueue_fail_step 2 q3 _ h3]
  rw [if_pos (by simp [maxErrors])]

end Bmclib

namespace Bmclib

/-- The submission output of the parseJobId doc comment and of the
TestParseJobId ValidJobId fixture. -/
def racadmSubmitOutput : List Char :=
  ("Please wait while racadm transfers the file.\n" ++
   "File transferred successfully. Initiating the import operation.\n" ++
   "RAC977: Import configuration XML file operation initiated.\n" ++
   "Use the \"racadm jobqueue view -i JID_000123456789\" command to view the status\n" ++
   "of the operation.").toList

/-- The TestParsePercentComplete InvalidPercentCompleteFormat fixture. -/
def racadmInvalidPctOutput : List Char :=
  ("---------------------------- JOB -------------------------\n" ++
   "[Job ID=JID_000123456789]\n" ++
   "Job Name=Configure: Import Server Configuration Profile\n" ++
   "Status=Running\n" ++
   "Scheduled Start Time=[Not Applicable]\n" ++
   "Expiration Time=[Not Applicable]\n" ++
   "Actual Start Time=[Thu, 27 Mar 2025 16:44:19]\n" ++
   "Actual Completion Time=[Not Applicable]\n" ++
   "Message=[SYS058: Applying configuration changes.]\n" ++
   "Percent Complete=[invalid]\n" ++
   "----------------------------------------------------------").toList

/-- Claim C1: in the poll loop of ChangeBiosCfg, three consecutive failing
ticks (transport error from GetJobQueue or parse error from
parsePercentComplete) terminate the operation with the exceeded-maximum-
consecutive-errors failure, any successfully parsed tick resets the
consecutive-error counter to zero, and two failures followed by a success
leave the loop running exactly as if none of the three ticks had
happened. -/
theorem changeBiosCfg_consecutive_error_ceiling :
    (∀ q1 q2 q3 rest, tickFails q1 = true → tickFails q2 = true →
      tickFails q3 = true →
      pollJobQueue 0 (q1 :: q2 :: q3 :: rest) = .failedMaxErrors) ∧
    (∀ ec out n rest, parsePercentComplete out = .ok n → n ≠ 100 →
      pollJobQueue ec (.ok out :: rest) = pollJobQueue 0 rest) ∧
    (∀ q1 q2 out n rest, tickFails q1 = true → tickFails q2 = true →
      parsePercentComplete out = .ok n → n ≠ 100 →
      pollJobQueue 0 (q1 :: q2 :: .ok out :: rest) = pollJobQueue 0 rest) ∧
    (∀ rem out j q1 q2 q3 rest, timeoutNs ≤ rem → parseJobId out = .ok j →
      tickFails q1 = true → tickFails q2 = true → tickFails q3 = true →
      changeBiosCfg ⟨rem, .ok out, q1 :: q2 :: q3 :: rest⟩ =
        (.maxConsecErr, true)) := by
  refine ⟨pollJobQueue_three_fails, ?_, ?_, ?_⟩
  · intro ec out n rest hp hn
    exact pollJobQueue_success_step ec out n rest hp hn
  · intro q1 q2 out n rest h1 h2 hp hn
    rw [pollJobQueue_fail_step 0 q1 _ h1, if_neg (by simp [maxErrors])]
    rw [pollJobQueue_fail_step 1 q2 _ h2, if_neg (by simp [maxErrors])]
    exact pollJobQueue_success_step 2 out n rest hp hn
  · intro rem out j q1 q2 q3 rest hrem hj h1 h2 h3
    have hpoll := pollJobQueue_three_fails q1 q2 q3 rest h1 h2 h3
    simp only [changeBiosCfg]
    rw [if_neg (by omega)]
    simp [hj, hpoll]

/-- Claim C1 witness: three transport errors fail the poll loop; two
transport errors followed by a successful twenty-percent read leave it
running with the counter reset to zero. -/
theorem changeBiosCfg_consecutive_error_ceiling_witness :
    pollJobQueue 0 [.error "x", .error "x", .error "x"] = .failedMaxErrors ∧
    pollJobQueue 0 [.error "x", .error "x",
      .ok "Percent Complete=[20]".toList] = .running 0 := by
  constructor
  · exact changeBiosCfg_consecutive_error_ceiling.1 _ _ _ [] (by decide)
      (by decide) (by decide)
  · rw [changeBiosCfg_consecutive_error_ceiling.2.2.1 (.error "x") (.error "x")
      "Percent Complete=[20]".toList 20 [] (by decide) (by decide) (by decide)
      (by decide)]
    rfl

/-- Claim C2: ChangeBiosCfg compares the remaining context budget with the
minimum required duration of fourteen minutes thirty seconds; when the
budget is smaller it returns the deadline error at once and the racadm set
command is never executed. -/
theorem changeBiosCfg_deadline_guard (env : CBEnv)
    (h : env.remaining < timeoutNs) :
    changeBiosCfg env = (.deadlineErr, false) ∧
    timeoutNs = (14 * 60 + 30) * 1000000000 := by
  refine ⟨?_, rfl⟩
  simp [changeBiosCfg, h]

/-- Claim C2 witness: with one nanosecond of budget the operation fails
fast and the set command is not run. -/
theorem changeBiosCfg_deadline_guard_witness :
    changeBiosCfg ⟨1, .ok [], []⟩ = (.deadlineErr, false) :=
  (changeBiosCfg_deadline_guard ⟨1, .ok [], []⟩ (by decide)).1

end Bmclib

namespace Bmclib

/-- Claim C3 (amended): parseJobId errors on any input containing no
occurrence of JID_; on the documented submission output it returns exactly
JID_000123456789; and whenever the first line containing JID_ has at least
twelve characters after the first occurrence, it returns the sixteen
character token starting there. -/
theorem parseJobId_spec :
    (∀ msg, containsSeq jidMarker msg = false → parseJobId msg = .err ()) ∧
    parseJobId racadmSubmitOutput = .ok "JID_000123456789".toList ∧
    (∀ msg line idx,
      (splitLines msg).find? (fun l => containsSeq jidMarker l) = some line →
      idxOfSeq jidMarker line = some idx → idx + 16 ≤ line.length →
      parseJobId msg = .ok ((line.drop idx).take 16) ∧
      ((line.drop idx).take 16).length = 16) := by
  refine ⟨?_, by decide, ?_⟩
  · intro msg h
    apply parseJobIdLines_all_miss
    intro l hl
    by_contra hc
    have hc' : containsSeq jidMarker l = true := by simpa using hc
    have := containsSeq_of_line jidMarker msg l hl hc'
    rw [h] at this
    cases this
  · intro msg line idx hfind hidx hlen
    refine ⟨parseJobIdLines_find _ line idx hfind hidx hlen, ?_⟩
    simp only [List.length_take, List.length_drop]
    omega

/-- Claim C3 witness: the no-occurrence branch applied to an output with
no JID_ token, and the token branch applied to the documented output. -/
theorem parseJobId_spec_witness :
    parseJobId "no job identifier here".toList = .err () ∧
    parseJobId "racadm jobqueue view -i JID_000123456789 done".toList =
      .ok "JID_000123456789".toList := by
  constructor
  · exact parseJobId_spec.1 _ (by decide)
  · exact (parseJobId_spec.2.2 "racadm jobqueue view -i JID_000123456789 done".toList
      "racadm jobqueue view -i JID_000123456789 done".toList 24
      (by decide) (by decide) (by decide)).1

/-- Claim C3 counterexample: on an input whose second line carries a full
sixteen character job id but whose first JID_-bearing line is too short,
the Go code panics on the out-of-bounds slice instead of returning the
token of the first line with twelve characters after JID_. -/
theorem parseJobId_first_line_counterexample :
    ("JID_000123456789".toList ∈ splitLines "JID_x\nJID_000123456789".toList) ∧
    idxOfSeq jidMarker "JID_000123456789".toList = some 0 ∧
    (0 + 16 ≤ ("JID_000123456789".toList).length) ∧
    parseJobId "JID_x\nJID_000123456789".toList ≠
      .ok "JID_000123456789".toList ∧
    parseJobId "JID_x\nJID_000123456789".toList = .panics := by
  decide

/-- Claim C5: on a submission output whose line has fewer than twelve
characters after the first occurrence of JID_, the slice
line[idx : idx+16] is out of bounds and the Go code panics instead of
returning a job id or an error. -/
theorem parseJobId_short_line_panics :
    idxOfSeq jidMarker "JID_".toList = some 0 ∧
    ¬ (0 + 16 ≤ ("JID_".toList).length) ∧
    parseJobId "JID_".toList = .panics := by
  decide

end Bmclib

namespace Bmclib

/-- Claim C4 (amended): parsePercentComplete errors on every input with no
line starting with the Percent Complete=[ marker, errors on the
Percent Complete=[invalid] fixture, and whenever it succeeds the returned
value is a nonnegative integer (the code imposes no upper bound of one
hundred). -/
theorem parsePercentComplete_spec :
    (∀ msg, (∀ l ∈ splitLines msg, leadsWith pctMarker l = false) →
      parsePercentComplete msg = .error .notFound) ∧
    parsePercentComplete racadmInvalidPctOutput =
      .error (.regexFail "Percent Complete=[invalid]".toList) ∧
    (∀ msg n, parsePercentComplete msg = .ok n → 0 ≤ n) := by
  refine ⟨?_, by decide, parsePercentComplete_nonneg⟩
  intro msg h
  exact parsePercentComplete_go_all_miss (splitLines msg) h

/-- Claim C4 witness: the no-progress-line branch applied to a status
output without the marker line. -/
theorem parsePercentComplete_spec_witness :
    parsePercentComplete "Status=Running\nMessage=[busy]".toList =
      .error .notFound :=
  parsePercentComplete_spec.1 _ (by decide)

/-- Claim C4 counterexample: a progress line carrying two hundred percent
parses successfully to a value outside the claimed zero-to-one-hundred
range. -/
theorem parsePercentComplete_range_counterexample :
    parsePercentComplete "Percent Complete=[200]".toList = .ok 200 ∧
    ¬ ((200 : Int) ≤ 100) := by
  constructor
  · decide
  · decide

end Bmclib

namespace Bmclib

theorem escapeLdapString_foldl (s acc : List Char) :
    s.foldl (fun r c => r ++ escPiece c) acc = acc ++ (s.map escPiece).flatten := by
  induction s generalizing acc with
  | nil => simp
  | cons c cs ih => simp [List.foldl, ih]

/-- Claim C10: escapeLdapString maps each equals sign to %5C%3D, each comma
to %5C%2C and every other rune to itself, concatenated in input order; in
particular the documented base DN escapes to the documented form. -/
theorem escapeLdapString_spec :
    (∀ s, escapeLdapString s = (s.map escPiece).flatten) ∧
    escPiece '=' = "%5C%3D".toList ∧
    escPiece ',' = "%5C%2C".toList ∧
    (∀ c, c ≠ '=' → c ≠ ',' → escPiece c = [c]) ∧
    escapeLdapString "ou=People,dc=example,dc=com".toList =
      "ou%5C%3DPeople%5C%2Cdc%5C%3Dexample%5C%2Cdc%5C%3Dcom".toList := by
  refine ⟨?_, by decide, by decide, ?_, by decide⟩
  · intro s
    simpa using escapeLdapString_foldl s []
  · intro c h1 h2
    simp [escPiece, h1, h2]

/-- Claim C10 witness: a rune that is neither an equals sign nor a comma
is left unchanged. -/
theorem escapeLdapString_spec_witness : escPiece 'a' = ['a'] :=
  escapeLdapString_spec.2.2.2.1 'a' (by decide) (by decide)

end Bmclib

namespace Bmclib

/-! ## iDRAC8 adapter: HTTP model

The adapter methods issue GET/POST/PUT calls through the receiver's
helpers i.get / i.post / i.put (defined in a sibling file of the package);
each call is modelled as a request value sent to a responder oracle, and
every operation additionally returns the ordered list of requests it
issued, so that zero-side-effect claims are statements about that list. -/

/-- One vendor HTTP request. -/
inductive HReq : Type
  | get (endpoint : List Char)
  | post (endpoint : List Char) (payload : List Char) (ctype : List Char)
  | put (endpoint : List Char) (payload : List Char)
  deriving DecidableEq, Repr

/-- The (status code, body, transport error) triple the helpers return. -/
structure HResp : Type where
  status : Int
  body : List Char
  terr : Option (List Char)
  deriving DecidableEq, Repr

/-- The transport oracle standing for the BMC on the wire. -/
abbrev Responder : Type := HReq → HResp

/-- Errors of the iDRAC8 adapter, one constructor per construction site:
validation errors (errors.New of a fixed message), propagated transport
errors, the synthesized non-200 GET message, the synthesized cert-upload
non-201 message, and unmarshal/marshal failures. -/
inductive AErr : Type
  | validation (msg : List Char)
  | transport (e : List Char)
  | non200Get (endpoint : List Char)
  | cert201 (endpoint : List Char)
  | unmarshal (e : List Char)
  | marshalErr (e : List Char)
  deriving DecidableEq, Repr

/-- Render an integer the way fmt.Sprintf %d does. -/
def intStr (n : Int) : List Char := (toString n).toList

/-- Render a natural number the way fmt.Sprintf %d does. -/
def natStr (n : Nat) : List Char := (toString n).toList

/-- The cfgresources.Ntp fields the adapter reads. -/
structure NtpCfg : Type where
  Server1 : List Char
  Server2 : List Char
  Server3 : List Char
  Timezone : List Char
  Enable : Bool
  deriving DecidableEq, Repr

/-- The cfgresources.Syslog fields the adapter reads. -/
structure SyslogCfg : Type where
  Server : List Char
  Port : Int
  Enable : Bool
  deriving DecidableEq, Repr

/-- The cfgresources.Ldap fields the adapter reads. -/
structure LdapCfg : Type where
  Server : List Char
  BaseDn : List Char
  BindDn : List Char
  UserAttribute : List Char
  GroupAttribute : List Char
  SearchFilter : List Char
  Port : Int
  deriving DecidableEq, Repr

/-- The cfgresources.LdapGroup fields the adapter reads. -/
structure LdapGroupCfg : Type where
  Role : List Char
  Group : List Char
  GroupBaseDn : List Char
  Enable : Bool
  deriving DecidableEq, Repr

/-- The cfgresources.Network fields the iDRAC8 Network method reads. -/
structure NetworkCfg : Type where
  DNSFromDHCP : Bool
  IpmiEnable : Bool
  SolEnable : Bool
  deriving DecidableEq, Repr

namespace IDrac8

/-- Embedding of applyTimezoneParam.  The Go function returns nothing: the
first component is the error value it builds and logs on a transport error
or a non-200 status, which the caller never sees. -/
def applyTimezoneParam (timezone : List Char) (R : Responder) :
    Option AErr × List HReq :=
  let ep := "data?set=tm_tz_str_zone:".toList ++ timezone
  let r := R (.get ep)
  if r.terr.isSome ∨ r.status ≠ 200 then
    (match r.terr with
     | some e => some (.transport e)
     | none => some (.non200Get ep), [.get ep])
  else (none, [.get ep])

/-- The query string applyNtpServerParam builds. -/
def ntpQueryStr (cfg : NtpCfg) : List Char :=
  "set=tm_ntp_int_opmode:".toList ++
    intStr (if cfg.Enable then 1 else 0) ++ ",".toList ++
  "tm_ntp_str_server1:".toList ++ cfg.Server1 ++ ",".toList ++
  "tm_ntp_str_server2:".toList ++ cfg.Server2 ++ ",".toList ++
  "tm_ntp_str_server3:".toList ++ cfg.Server3 ++ ",".toList

/-- Embedding of applyNtpServerParam; like applyTimezoneParam the Go
function only logs the error it builds. -/
def applyNtpServerParam (cfg : NtpCfg) (R : Responder) :
    Option AErr × List HReq :=
  let ep := "data?".toList ++ ntpQueryStr cfg
  let r := R (.get ep)
  if r.terr.isSome ∨ r.status ≠ 200 then
    (match r.terr with
     | some e => some (.transport e)
     | none => some (.non200Get ep), [.get ep])
  else (none, [.get ep])

/-- Embedding of the iDRAC8 Ntp method: the two missing-field checks log
and return the never-assigned named error (nil); the helpers are invoked
for their calls only, their logged errors are dropped. -/
def Ntp (cfg : NtpCfg) (R : Responder) : Option AErr × List HReq :=
  if cfg.Server1 = [] then (none, [])
  else if cfg.Timezone = [] then (none, [])
  else
    (none, (applyTimezoneParam cfg.Timezone R).2 ++ (applyNtpServerParam cfg R).2)

/-- Embedding of the iDRAC8 Syslog method.  json.Marshal of the
string-field payload record cannot fail and is supplied as a total
function; setAlertFilterPayload is a package constant defined outside the
given sources and is likewise a parameter. -/
def Syslog (cfg : SyslogCfg)
    (marshal : List Char → List Char → List Char → List Char)
    (alertFilter : List Char) (R : Responder) : Option AErr × List HReq :=
  if cfg.Server = [] then (none, [])
  else
    let port : Int := if cfg.Port = 0 then 514 else cfg.Port
    let enable : List Char :=
      if cfg.Enable then "Enabled".toList else "Disabled".toList
    let payload := marshal (intStr port) cfg.Server enable
    let ep1 := "sysmgmt/2012/server/configgroup/iDRAC.SysLog".toList
    let r1 := R (.put ep1 payload)
    match r1.terr with
    | some e => (some (.transport e), [.put ep1 payload])
    | none =>
      let ep2 := "data?set=alertStatus:1".toList
      let r2 := R (.post ep2 [] [])
      match r2.terr with
      | some e => (some (.transport e), [.put ep1 payload, .post ep2 [] []])
      | none =>
        let ep3 := "data?set=".toList ++ alertFilter
        let r3 := R (.post ep3 [] [])
        match r3.terr with
        | some e =>
          (some (.transport e),
           [.put ep1 payload, .post ep2 [] [], .post ep3 [] []])
        | none =>
          (none, [.put ep1 payload, .post ep2 [] [], .post ep3 [] []])

/-- The endpoint of the LDAP server GET. -/
def ldapServerEndpoint (cfg : LdapCfg) : List Char :=
  "data?set=xGLServer:".toList ++ cfg.Server

/-- Embedding of applyLdapSearchFilterParam. -/
def applyLdapSearchFilterParam (cfg : LdapCfg) (R : Responder) :
    Option AErr × List HReq :=
  if cfg.SearchFilter = [] then
    (some (.validation
      "Ldap resource parameter SearchFilter required but not declared.".toList),
     [])
  else
    let ep := "data?set=xGLSearchFilter:".toList ++
      escapeLdapString cfg.SearchFilter
    let r := R (.get ep)
    match r.terr with
    | some e => (some (.transport e), [.get ep])
    | none =>
      if r.status ≠ 200 then (some (.non200Get ep), [.get ep])
      else (none, [.get ep])

/-- Embedding of the iDRAC8 Ldap method: validation, the server GET with
the synthesized non-200 error, then the search-filter step. -/
def Ldap (cfg : LdapCfg) (R : Responder) : Option AErr × List HReq :=
  if cfg.Server = [] then
    (some (.validation
      "LDAP resource parameter \"Server\" required but not declared.".toList),
     [])
  else
    let ep := ldapServerEndpoint cfg
    let r := R (.get ep)
    match r.terr with
    | some e => (some (.transport e), [.get ep])
    | none =>
      if r.status ≠ 200 then (some (.non200Get ep), [.get ep])
      else
        match applyLdapSearchFilterParam cfg R with
        | (e, calls) => (e, .get ep :: calls)

end IDrac8

end Bmclib

namespace Bmclib

namespace IDrac8

/-- The body the Network method posts, built from the params map with
defaults of one and the three config-driven zero overrides. -/
def networkPayload (cfg : NetworkCfg) : List Char :=
  "dhcpForDNSDomain:".toList ++ intStr (if cfg.DNSFromDHCP then 1 else 0) ++
    ",".toList ++
  "ipmiLAN:".toList ++ intStr (if cfg.IpmiEnable then 1 else 0) ++
    ",".toList ++
  "serialOverLanEnabled:".toList ++ intStr (if cfg.SolEnable then 1 else 0) ++
    ",".toList ++
  "serialOverLanBaud:3,".toList ++
  "serialOverLanPriv:0,".toList ++
  "racRedirectEna:".toList ++ intStr (if cfg.SolEnable then 1 else 0) ++
    ",".toList ++
  "racEscKey:^\\\\".toList

/-- The single POST the Network method issues. -/
def networkReq (cfg : NetworkCfg) : HReq :=
  .post "data?set".toList (networkPayload cfg) []

/-- Embedding of the iDRAC8 Network method: on a transport error or a
non-200 status it returns (reset, err) where err is only the transport
error, so a bare non-200 status yields a nil error; reset is never set. -/
def Network (cfg : NetworkCfg) (R : Responder) :
    (Bool × Option AErr) × List HReq :=
  let req := networkReq cfg
  let r := R req
  if r.terr.isSome ∨ r.status ≠ 200 then
    ((false, r.terr.map .transport), [req])
  else ((false, none), [req])

/-- Modelled from the spec: internal.IsRoleValid is not among the given
sources; per the adapter's own error message a valid role is "admin" OR
"user". -/
def isRoleValid (role : List Char) : Bool :=
  role = "admin".toList || role = "user".toList

/-- Outcome of the per-group loop of LdapGroups: an early error return, or
completion with the next group id, the accumulated privilege parameter and
the calls made. -/
inductive LGStep : Type
  | failed (e : AErr) (calls : List HReq)
  | done (groupID : Nat) (privParam : List Char) (calls : List HReq)
  deriving DecidableEq, Repr

/-- Embedding of the for-loop of LdapGroups: per group, skip disabled
groups and groups without a role, fail on a missing group or group base
DN or an invalid role, issue the group-DN GET (failing on transport error
or non-200), then extend the privilege parameter and advance the group
id. -/
def ldapGroupsLoop (R : Responder) :
    List LdapGroupCfg → Nat → List Char → List Char → List HReq → LGStep
  | [], gid, _priv, param, calls => .done gid param calls
  | g :: gs, gid, priv, param, calls =>
    if g.Enable = false then ldapGroupsLoop R gs gid priv param calls
    else if g.Role = [] then ldapGroupsLoop R gs gid priv param calls
    else if g.Group = [] then
      .failed (.validation "LDAP resource parameter \"Group\" is required!".toList) calls
    else if g.GroupBaseDn = [] then
      .failed (.validation "LDAP resource parameter \"GroupBaseDn\" is required!".toList) calls
    else if isRoleValid g.Role = false then
      .failed (.validation
        "LDAP resource parameter \"Role\" must be a valid role: \"admin\" OR \"user\".".toList)
        calls
    else
      let groupDn := escapeLdapString (g.Group ++ ",".toList ++ g.GroupBaseDn)
      let ep := "data?set=xGLGroup".toList ++ natStr gid ++ "Name:".toList ++ groupDn
      let r := R (.get ep)
      match r.terr with
      | some e => .failed (.transport e) (calls ++ [.get ep])
      | none =>
        if r.status ≠ 200 then .failed (.non200Get ep) (calls ++ [.get ep])
        else
          let priv2 :=
            if g.Role = "user".toList then "497".toList
            else if g.Role = "admin".toList then "511".toList
            else priv
          let param2 := param ++ "xGLGroup".toList ++ natStr gid ++
            "Priv:".toList ++ priv2 ++ ",".toList
          ldapGroupsLoop R gs (gid + 1) priv2 param2 (calls ++ [.get ep])

/-- Zero privileges for the groups from gid up to the Dell maximum of
five. -/
def fillPrivFrom (gid : Nat) : List Char :=
  if _h : gid ≤ 5 then
    "xGLGroup".toList ++ natStr gid ++ "Priv:0,".toList ++ fillPrivFrom (gid + 1)
  else []
termination_by 6 - gid
decreasing_by omega

/-- The body applyLdapRoleGroupPrivParam posts to postset?ldapconf. -/
def ldapConfPayload (cfg : LdapCfg) (groupPrivilegeParam : List Char) :
    List Char :=
  "data=LDAPEnableMode:3,".toList ++
  "xGLNameSearchEnabled:0,".toList ++
  "xGLBaseDN:".toList ++ escapeLdapString cfg.BaseDn ++ ",".toList ++
  "xGLUserLogin:".toList ++ cfg.UserAttribute ++ ",".toList ++
  "xGLGroupMem:".toList ++ cfg.GroupAttribute ++ ",".toList ++
  (if cfg.BindDn ≠ [] then
    "xGLBindDN:".toList ++ escapeLdapString cfg.BindDn ++ ",".toList
   else "xGLBindDN:,".toList) ++
  "xGLCertValidationEnabled:0,".toList ++
  groupPrivilegeParam ++
  "xGLServerPort:".toList ++ intStr cfg.Port

/-- Embedding of applyLdapRoleGroupPrivParam: like Network, a bare non-200
response code leaves err nil. -/
def applyLdapRoleGroupPrivParam (cfg : LdapCfg) (param : List Char)
    (R : Responder) : Option AErr × List HReq :=
  let req := HReq.post "postset?ldapconf".toList (ldapConfPayload cfg param) []
  let r := R req
  if r.terr.isSome ∨ r.status ≠ 200 then (r.terr.map .transport, [req])
  else (none, [req])

/-- Embedding of the iDRAC8 LdapGroups method: four validation checks, the
per-group loop, the fill of the remaining group privileges and the final
privilege POST. -/
def LdapGroups (cfgGroups : List LdapGroupCfg) (cfgLdap : LdapCfg)
    (R : Responder) : Option AErr × List HReq :=
  if cfgLdap.Port = 0 then
    (some (.validation "LDAP resource parameter \"Port\" is required!".toList), [])
  else if cfgLdap.BaseDn = [] then
    (some (.validation "LDAP resource parameter \"BaseDn\" is required!".toList), [])
  else if cfgLdap.UserAttribute = [] then
    (some (.validation "LDAP resource parameter \"userAttribute\" is required!".toList), [])
  else if cfgLdap.GroupAttribute = [] then
    (some (.validation "LDAP resource parameter \"groupAttribute\" is required!".toList), [])
  else
    match ldapGroupsLoop R cfgGroups 1 "0".toList [] [] with
    | .failed e calls => (some e, calls)
    | .done gid param calls =>
      match applyLdapRoleGroupPrivParam cfgLdap (param ++ fillPrivFrom gid) R with
      | (e, calls2) => (e, calls ++ calls2)

end IDrac8

end Bmclib

namespace Bmclib

namespace IDrac8

/-- The UserInfo fields the User method assigns. -/
structure UserInfo : Type where
  UserName : List Char
  Password : List Char
  Enable : List Char
  SolEnable : List Char
  Privilege : List Char
  IpmiLanPrivilege : List Char
  deriving DecidableEq, Repr

/-- The cfgresources.User fields the User method reads. -/
structure UserCfg : Type where
  Name : List Char
  Password : List Char
  Role : List Char
  Enable : Bool
  deriving DecidableEq, Repr

/-- The field updates the enable branch of User performs before
putUser. -/
def updateEnabledUser (cfgUser : UserCfg) (info : UserInfo) : UserInfo :=
  { info with
    Enable := "Enabled".toList
    SolEnable := "Enabled".toList
    UserName := cfgUser.Name
    Password := cfgUser.Password
    Privilege :=
      if cfgUser.Role = "admin".toList then "511".toList else "499".toList
    IpmiLanPrivilege :=
      if cfgUser.Role = "admin".toList then "Administrator".toList
      else "Operator".toList }

/-- The field updates the disable branch of User performs before
putUser. -/
def disableUser (cfgUser : UserCfg) (info : UserInfo) : UserInfo :=
  { info with
    Enable := "Disabled".toList
    SolEnable := "Disabled".toList
    UserName := cfgUser.Name
    Privilege := "0".toList
    IpmiLanPrivilege := "No Access".toList }

/-- Collaborators of the User method that live in sibling files of the
package (internal.ValidateUserConfig, i.queryUsers, userInIdrac,
getEmptyUserSlot, i.putUser) and are therefore abstract parameters here;
T is the type of the queried on-device user table. -/
structure UserEnv (T : Type) : Type where
  validate : List UserCfg → Option (List Char)
  queryUsers : Except (List Char) T
  userInIdrac : List Char → T → Nat × UserInfo × Bool
  getEmptyUserSlot : T → Except (List Char) (Nat × UserInfo)
  putUser : Nat → UserInfo → Option (List Char)

/-- Embedding of the range loop of User.  The error accumulator mirrors
the Go named return err, which every putUser / getEmptyUserSlot call
overwrites; continue is recursion carrying the recorded error; the second
component lists the names processed, in order. -/
def userLoop {T : Type} (env : UserEnv T) (tbl : T) :
    List UserCfg → Option (List Char) → List (List Char) →
    Option (List Char) × List (List Char)
  | [], err, processed => (err, processed)
  | u :: us, err, processed =>
    let processed2 := processed ++ [u.Name]
    let q := env.userInIdrac u.Name tbl
    if u.Enable then
      if q.2.2 = false then
        match env.getEmptyUserSlot tbl with
        | .error e => userLoop env tbl us (some e) processed2
        | .ok s =>
          match env.putUser s.1 (updateEnabledUser u s.2) with
          | some e => userLoop env tbl us (some e) processed2
          | none => userLoop env tbl us none processed2
      else
        match env.putUser q.1 (updateEnabledUser u q.2.1) with
        | some e => userLoop env tbl us (some e) processed2
        | none => userLoop env tbl us none processed2
    else
      if q.2.2 then
        userLoop env tbl us (env.putUser q.1 (disableUser u q.2.1)) processed2
      else userLoop env tbl us err processed2

/-- Embedding of the iDRAC8 User method: validation, the user-table query,
then the per-user loop. -/
def User {T : Type} (env : UserEnv T) (cfgUsers : List UserCfg) :
    Option (List Char) × List (List Char) :=
  match env.validate cfgUsers with
  | some e => (some ("User config validation failed: ".toList ++ e), [])
  | none =>
    match env.queryUsers with
    | .error _ => (some "Unable to query existing users.".toList, [])
    | .ok tbl => userLoop env tbl cfgUsers none []

/-- The phase-1 endpoint of UploadHTTPSCert, ST1 token appended. -/
def uploadEndpoint1 (st1 : List Char) : List Char :=
  "sysmgmt/2012/server/transient/filestore?fileupload=true&ST1=".toList ++ st1

/-- The phase-2 endpoint of UploadHTTPSCert. -/
def uploadEndpoint2 : List Char :=
  "sysmgmt/2012/server/network/ssl/cert".toList

/-- Collaborators of UploadHTTPSCert: the session token, the multipart
form bytes and content type built by the writer (their construction is
not modelled), and the certStore unmarshal / resource-URI marshal pair
whose certStore type lives in a sibling file. -/
structure CertEnv : Type where
  st1 : List Char
  formBytes : List Char
  ctype : List Char
  parseCertStore : List Char → Except (List Char) (List Char)
  marshalFile : List Char → Except (List Char) (List Char)

/-- The phase-1 multipart POST. -/
def phase1Req (env : CertEnv) : HReq :=
  .post (uploadEndpoint1 env.st1) env.formBytes env.ctype

/-- Embedding of UploadHTTPSCert: phase-1 multipart POST expecting 201,
unmarshal of the returned cert store, then the phase-2 POST of the
resource URI expecting 201; true means the BMC needs a reset. -/
def UploadHTTPSCert (env : CertEnv) (R : Responder) :
    (Bool × Option AErr) × List HReq :=
  let req1 := phase1Req env
  let r1 := R req1
  if r1.terr.isSome ∨ r1.status ≠ 201 then
    ((false, some (match r1.terr with
      | some e => .transport e
      | none => .cert201 (uploadEndpoint1 env.st1))), [req1])
  else
    match env.parseCertStore r1.body with
    | .error e => ((false, some (.unmarshal e)), [req1])
    | .ok file =>
      match env.marshalFile file with
      | .error e => ((false, some (.marshalErr e)), [req1])
      | .ok uri =>
        let req2 := HReq.post uploadEndpoint2 uri []
        let r2 := R req2
        if r2.terr.isSome ∨ r2.status ≠ 201 then
          ((false, some (match r2.terr with
            | some e => .transport e
            | none => .cert201 uploadEndpoint2)), [req1, req2])
        else ((true, none), [req1, req2])

end IDrac8

/-- A responder that answers every request with a bare 500, no transport
error. -/
def resp500 : Responder := fun _ => ⟨500, [], none⟩

end Bmclib

namespace Bmclib

namespace IDrac8

/-- The endpoint of the LDAP search-filter GET. -/
def searchFilterEndpoint (cfg : LdapCfg) : List Char :=
  "data?set=xGLSearchFilter:".toList ++ escapeLdapString cfg.SearchFilter

/-- The endpoint of the group-DN GET that LdapGroups issues for group
number gid. -/
def groupNameEndpoint (gid : Nat) (g : LdapGroupCfg) : List Char :=
  "data?set=xGLGroup".toList ++ natStr gid ++ "Name:".toList ++
    escapeLdapString (g.Group ++ ",".toList ++ g.GroupBaseDn)

end IDrac8

/-- Claim C6 (amended): the LDAP operations — Ldap on its server GET,
applyLdapSearchFilterParam (also through the enclosing Ldap) on the
search-filter GET, and LdapGroups on the group-DN GET — synthesize and
return a non-nil error when a GET answers with a non-200 status and no
transport error, but Network returns a nil error on a bare non-200 POST
status, and Ntp never returns an error at all, merely logging the
failures of its two helpers. -/
theorem idrac8_non200_handling :
    (∀ cfg R, cfg.Server ≠ [] →
      (R (.get (IDrac8.ldapServerEndpoint cfg))).terr = none →
      (R (.get (IDrac8.ldapServerEndpoint cfg))).status ≠ 200 →
      IDrac8.Ldap cfg R =
        (some (.non200Get (IDrac8.ldapServerEndpoint cfg)),
         [.get (IDrac8.ldapServerEndpoint cfg)])) ∧
    (∀ cfg R, (R (IDrac8.networkReq cfg)).terr = none →
      (R (IDrac8.networkReq cfg)).status ≠ 200 →
      IDrac8.Network cfg R = ((false, none), [IDrac8.networkReq cfg])) ∧
    (∀ cfg R, cfg.Server1 ≠ [] → cfg.Timezone ≠ [] →
      (IDrac8.Ntp cfg R).1 = none) ∧
    (∀ cfg R, cfg.SearchFilter ≠ [] →
      (R (.get (IDrac8.searchFilterEndpoint cfg))).terr = none →
      (R (.get (IDrac8.searchFilterEndpoint cfg))).status ≠ 200 →
      IDrac8.applyLdapSearchFilterParam cfg R =
        (some (.non200Get (IDrac8.searchFilterEndpoint cfg)),
         [.get (IDrac8.searchFilterEndpoint cfg)])) ∧
    (∀ cfg R, cfg.Server ≠ [] → cfg.SearchFilter ≠ [] →
      (R (.get (IDrac8.ldapServerEndpoint cfg))).terr = none →
      (R (.get (IDrac8.ldapServerEndpoint cfg))).status = 200 →
      (R (.get (IDrac8.searchFilterEndpoint cfg))).terr = none →
      (R (.get (IDrac8.searchFilterEndpoint cfg))).status ≠ 200 →
      IDrac8.Ldap cfg R =
        (some (.non200Get (IDrac8.searchFilterEndpoint cfg)),
         [.get (IDrac8.ldapServerEndpoint cfg),
          .get (IDrac8.searchFilterEndpoint cfg)])) ∧
    (∀ g gs cfg R, cfg.Port ≠ 0 → cfg.BaseDn ≠ [] →
      cfg.UserAttribute ≠ [] → cfg.GroupAttribute ≠ [] →
      g.Enable = true → g.Role ≠ [] → g.Group ≠ [] → g.GroupBaseDn ≠ [] →
      IDrac8.isRoleValid g.Role = true →
      (R (.get (IDrac8.groupNameEndpoint 1 g))).terr = none →
      (R (.get (IDrac8.groupNameEndpoint 1 g))).status ≠ 200 →
      IDrac8.LdapGroups (g :: gs) cfg R =
        (some (.non200Get (IDrac8.groupNameEndpoint 1 g)),
         [.get (IDrac8.groupNameEndpoint 1 g)])) := by
  refine ⟨?_, ?_, ?_, ?_, ?_, ?_⟩
  · intro cfg R hs ht hc
    simp [IDrac8.Ldap, hs, ht, hc]
  · intro cfg R ht hc
    simp [IDrac8.Network, ht, hc]
  · intro cfg R h1 h2
    simp [IDrac8.Ntp, h1, h2]
  · intro cfg R hsf ht hs
    simp [IDrac8.searchFilterEndpoint] at ht hs
    simp [IDrac8.applyLdapSearchFilterParam, IDrac8.searchFilterEndpoint,
      hsf, ht, hs]
  · intro cfg R hsrv hsf ht1 hs1 ht2 hs2
    simp [IDrac8.ldapServerEndpoint] at ht1 hs1
    simp [IDrac8.searchFilterEndpoint] at ht2 hs2
    simp [IDrac8.Ldap, IDrac8.applyLdapSearchFilterParam,
      IDrac8.ldapServerEndpoint, IDrac8.searchFilterEndpoint, hsrv, hsf,
      ht1, hs1, ht2, hs2]
  · intro g gs cfg R h1 h2 h3 h4 hg1 hg2 hg3 hg4 hrole ht hs
    simp [IDrac8.groupNameEndpoint] at ht hs
    simp [IDrac8.LdapGroups, IDrac8.ldapGroupsLoop, IDrac8.groupNameEndpoint,
      h1, h2, h3, h4, hg1, hg2, hg3, hg4, hrole, ht, hs]

/-- Claim C6 witness: the Ldap branch applied to a concrete configuration
and the all-500 responder. -/
theorem idrac8_non200_handling_witness :
    IDrac8.Ldap ⟨"s".toList, [], [], [], [], [], 0⟩ resp500 =
      (some (.non200Get (IDrac8.ldapServerEndpoint
        ⟨"s".toList, [], [], [], [], [], 0⟩)),
       [.get (IDrac8.ldapServerEndpoint ⟨"s".toList, [], [], [], [], [], 0⟩)]) :=
  idrac8_non200_handling.1 ⟨"s".toList, [], [], [], [], [], 0⟩ resp500
    (by decide) rfl (by decide)

/-- Claim C6 counterexample: with a responder answering 500 and no
transport error, Network returns a nil error and Ntp returns a nil error,
refuting that every iDRAC8 operation turns a non-200 status into a
non-nil error. -/
theorem idrac8_non200_counterexample :
    (resp500 (IDrac8.networkReq ⟨true, true, true⟩)).status = 500 ∧
    (resp500 (IDrac8.networkReq ⟨true, true, true⟩)).terr = none ∧
    (IDrac8.Network ⟨true, true, true⟩ resp500).1 = (false, none) ∧
    (IDrac8.Ntp ⟨"a".toList, [], [], "UTC".toList, true⟩ resp500).1 = none :=
  ⟨rfl, rfl, rfl, rfl⟩

/-- Claim C7 (amended): every missing required field short-circuits the
operation with zero network calls; Ldap and LdapGroups return a
descriptive validation error, while Syslog and Ntp log the problem and
return a nil error. -/
theorem idrac8_validation_short_circuit :
    (∀ cfg marshal alert R, cfg.Server = [] →
      IDrac8.Syslog cfg marshal alert R = (none, [])) ∧
    (∀ cfg R, cfg.Server1 = [] ∨ cfg.Timezone = [] →
      IDrac8.Ntp cfg R = (none, [])) ∧
    (∀ cfg R, cfg.Server = [] →
      IDrac8.Ldap cfg R = (some (.validation
        "LDAP resource parameter \"Server\" required but not declared.".toList),
        [])) ∧
    (∀ groups cfg R, cfg.Port = 0 →
      IDrac8.LdapGroups groups cfg R = (some (.validation
        "LDAP resource parameter \"Port\" is required!".toList), [])) ∧
    (∀ groups cfg R, cfg.Port ≠ 0 → cfg.BaseDn = [] →
      IDrac8.LdapGroups groups cfg R = (some (.validation
        "LDAP resource parameter \"BaseDn\" is required!".toList), [])) ∧
    (∀ groups cfg R, cfg.Port ≠ 0 → cfg.BaseDn ≠ [] →
      cfg.UserAttribute = [] →
      IDrac8.LdapGroups groups cfg R = (some (.validation
        "LDAP resource parameter \"userAttribute\" is required!".toList), [])) ∧
    (∀ groups cfg R, cfg.Port ≠ 0 → cfg.BaseDn ≠ [] →
      cfg.UserAttribute ≠ [] → cfg.GroupAttribute = [] →
      IDrac8.LdapGroups groups cfg R = (some (.validation
        "LDAP resource parameter \"groupAttribute\" is required!".toList), [])) := by
  refine ⟨?_, ?_, ?_, ?_, ?_, ?_, ?_⟩
  · intro cfg marshal alert R h
    simp [IDrac8.Syslog, h]
  · intro cfg R h
    rcases h with h | h
    · simp [IDrac8.Ntp, h]
    · by_cases h1 : cfg.Server1 = []
      · simp [IDrac8.Ntp, h1]
      · simp [IDrac8.Ntp, h1, h]
  · intro cfg R h
    simp [IDrac8.Ldap, h]
  · intro groups cfg R h
    simp [IDrac8.LdapGroups, h]
  · intro groups cfg R h1 h2
    simp [IDrac8.LdapGroups, h1, h2]
  · intro groups cfg R h1 h2 h3
    simp [IDrac8.LdapGroups, h1, h2, h3]
  · intro groups cfg R h1 h2 h3 h4
    simp [IDrac8.LdapGroups, h1, h2, h3, h4]

/-- Claim C7 witness: the LdapGroups missing-port branch at a concrete
configuration. -/
theorem idrac8_validation_short_circuit_witness :
    IDrac8.LdapGroups [] ⟨"s".toList, "dn".toList, [], "u".toList,
      "g".toList, [], 0⟩ resp500 =
      (some (.validation
        "LDAP resource parameter \"Port\" is required!".toList), []) :=
  idrac8_validation_short_circuit.2.2.2.1 []
    ⟨"s".toList, "dn".toList, [], "u".toList, "g".toList, [], 0⟩ resp500 rfl

/-- Claim C7 counterexample: Syslog with a missing server and Ntp with a
missing server1 short-circuit with zero calls but return a nil error, not
the claimed descriptive validation error. -/
theorem idrac8_validation_counterexample :
    IDrac8.Syslog ⟨[], 0, true⟩ (fun _ _ _ => []) [] resp500 = (none, []) ∧
    IDrac8.Ntp ⟨[], [], [], [], true⟩ resp500 = (none, []) :=
  ⟨rfl, rfl⟩

end Bmclib

namespace Bmclib

theorem userLoop_trace {T : Type} (env : IDrac8.UserEnv T) (tbl : T)
    (us : List IDrac8.UserCfg) : ∀ err acc,
    (IDrac8.userLoop env tbl us err acc).2 = acc ++ us.map (·.Name) := by
  induction us with
  | nil => intro err acc; simp [IDrac8.userLoop]
  | cons u us ih =>
    intro err acc
    simp only [IDrac8.userLoop]
    split
    · split
      · split
        · simp [ih]
        · split <;> simp [ih]
      · split <;> simp [ih]
    · split <;> simp [ih]

theorem userLoop_last_success {T : Type} (env : IDrac8.UserEnv T) (tbl : T)
    (u : IDrac8.UserCfg) (hen : u.Enable = true)
    (hex : (env.userInIdrac u.Name tbl).2.2 = true)
    (hput : env.putUser (env.userInIdrac u.Name tbl).1
      (IDrac8.updateEnabledUser u (env.userInIdrac u.Name tbl).2.1) = none) :
    ∀ us err acc, (IDrac8.userLoop env tbl (us ++ [u]) err acc).1 = none := by
  intro us
  induction us with
  | nil =>
    intro err acc
    simp only [List.nil_append, IDrac8.userLoop, hen, if_true, hex]
    simp [hput, IDrac8.userLoop]
  | cons v vs ih =>
    intro err acc
    simp only [List.cons_append, IDrac8.userLoop]
    split
    · split
      · split
        · exact ih _ _
        · split <;> exact ih _ _
      · split <;> exact ih _ _
    · split <;> exact ih _ _

/-- Claim C8 (amended): User walks the desired list exactly once and in
order, continuing past per-user failures; but the error it finally
returns is only the Go named return err, which the last user-modifying
call overwrites, so a trailing success erases all earlier recorded
failures instead of reporting them. -/
theorem idrac8_user_walks_once :
    (∀ (T : Type) (env : IDrac8.UserEnv T) (tbl : T) cfgUsers,
      env.validate cfgUsers = none → env.queryUsers = .ok tbl →
      (IDrac8.User env cfgUsers).2 = cfgUsers.map (·.Name)) ∧
    (∀ (T : Type) (env : IDrac8.UserEnv T) (tbl : T) us u,
      env.validate (us ++ [u]) = none → env.queryUsers = .ok tbl →
      u.Enable = true → (env.userInIdrac u.Name tbl).2.2 = true →
      env.putUser (env.userInIdrac u.Name tbl).1
        (IDrac8.updateEnabledUser u (env.userInIdrac u.Name tbl).2.1) = none →
      (IDrac8.User env (us ++ [u])).1 = none) := by
  constructor
  · intro T env tbl cfgUsers hv hq
    simp only [IDrac8.User, hv, hq]
    simpa using userLoop_trace env tbl cfgUsers none []
  · intro T env tbl us u hv hq hen hex hput
    simp only [IDrac8.User, hv, hq]
    exact userLoop_last_success env tbl u hen hex hput us none []

end Bmclib

namespace Bmclib

/-- A user table entry with empty fields, for the concrete scenarios. -/
def userInfo0 : IDrac8.UserInfo := ⟨[], [], [], [], [], []⟩

/-- A concrete User environment over a unit table: both configured users
exist on the device (user a in slot one, everyone else in slot two) and
putUser fails exactly on slot one. -/
def userEnv0 : IDrac8.UserEnv Unit where
  validate := fun _ => none
  queryUsers := .ok ()
  userInIdrac := fun name _ =>
    (if name = "a".toList then 1 else 2, userInfo0, true)
  getEmptyUserSlot := fun _ => .error "no empty slots".toList
  putUser := fun uid _ => if uid = 1 then some "put failed".toList else none

/-- Desired user a, enabled admin. -/
def userA : IDrac8.UserCfg := ⟨"a".toList, "pw".toList, "admin".toList, true⟩

/-- Desired user b, enabled operator. -/
def userB : IDrac8.UserCfg := ⟨"b".toList, "pw".toList, "user".toList, true⟩

/-- Claim C8 witness: both desired users are processed, in order, even
though processing of the first fails. -/
theorem idrac8_user_walks_once_witness :
    (IDrac8.User userEnv0 [userA, userB]).2 = ["a".toList, "b".toList] :=
  idrac8_user_walks_once.1 Unit userEnv0 () [userA, userB] rfl rfl

/-- Claim C8 counterexample: the putUser call for user a fails, user b
succeeds, and User returns a nil error, so the returned error does not
report the failed entry. -/
theorem idrac8_user_error_counterexample :
    userEnv0.putUser 1 (IDrac8.updateEnabledUser userA userInfo0) =
      some "put failed".toList ∧
    (userEnv0.userInIdrac userA.Name ()).1 = 1 ∧
    IDrac8.User userEnv0 [userA, userB] =
      (none, ["a".toList, "b".toList]) :=
  ⟨rfl, rfl, rfl⟩

theorem uploadEndpoint_ne (s : List Char) :
    IDrac8.uploadEndpoint1 s ≠ IDrac8.uploadEndpoint2 := by
  intro h
  have hlen := congrArg List.length h
  rw [IDrac8.uploadEndpoint1, IDrac8.uploadEndpoint2, List.length_append] at hlen
  have h1 :
      ("sysmgmt/2012/server/transient/filestore?fileupload=true&ST1=".toList).length
        = 60 := by decide
  have h2 : ("sysmgmt/2012/server/network/ssl/cert".toList).length = 36 := by
    decide
  rw [h1, h2] at hlen
  omega

/-- Claim C9: when the phase-1 multipart POST answers with a non-201
status or a transport error, UploadHTTPSCert stops after that single
request (and the phase-1 endpoint is not the phase-2 endpoint, so no
phase-2 POST was attempted) with an error naming the phase-1 upload; when
both phases answer 201, it returns true with a nil error after exactly
the two posts. -/
theorem uploadHTTPSCert_two_phase :
    (∀ env R, (R (IDrac8.phase1Req env)).terr = none →
      (R (IDrac8.phase1Req env)).status ≠ 201 →
      IDrac8.UploadHTTPSCert env R =
        ((false, some (.cert201 (IDrac8.uploadEndpoint1 env.st1))),
         [IDrac8.phase1Req env])) ∧
    (∀ env R e, (R (IDrac8.phase1Req env)).terr = some e →
      IDrac8.UploadHTTPSCert env R =
        ((false, some (.transport e)), [IDrac8.phase1Req env])) ∧
    (∀ s, IDrac8.uploadEndpoint1 s ≠ IDrac8.uploadEndpoint2) ∧
    (∀ env R file uri,
      (R (IDrac8.phase1Req env)).terr = none →
      (R (IDrac8.phase1Req env)).status = 201 →
      env.parseCertStore (R (IDrac8.phase1Req env)).body = .ok file →
      env.marshalFile file = .ok uri →
      (R (.post IDrac8.uploadEndpoint2 uri [])).terr = none →
      (R (.post IDrac8.uploadEndpoint2 uri [])).status = 201 →
      IDrac8.UploadHTTPSCert env R =
        ((true, none),
         [IDrac8.phase1Req env, .post IDrac8.uploadEndpoint2 uri []])) := by
  refine ⟨?_, ?_, uploadEndpoint_ne, ?_⟩
  · intro env R ht hs
    simp [IDrac8.UploadHTTPSCert, ht, hs]
  · intro env R e ht
    simp [IDrac8.UploadHTTPSCert, ht]
  · intro env R file uri ht hs hp hm ht2 hs2
    simp [IDrac8.UploadHTTPSCert, ht, hs, hp, hm, ht2, hs2]

/-- A concrete certificate upload environment for the C9 witness. -/
def certEnv0 : IDrac8.CertEnv where
  st1 := "t".toList
  formBytes := []
  ctype := []
  parseCertStore := fun _ => .error []
  marshalFile := fun _ => .error []

/-- Claim C9 witness: against the all-500 responder the upload stops
after the single phase-1 POST with the phase-1 error message. -/
theorem uploadHTTPSCert_two_phase_witness :
    IDrac8.UploadHTTPSCert certEnv0 resp500 =
      ((false, some (.cert201 (IDrac8.uploadEndpoint1 certEnv0.st1))),
       [IDrac8.phase1Req certEnv0]) :=
  uploadHTTPSCert_two_phase.1 certEnv0 resp500 rfl (by decide)

end Bmclib
